import Mathlib

/-!
Verification of the prompt-library catalog (an MCP server exposing five
read-only query tools over a fixed in-memory prompt mapping).

The embedding models the TypeScript source:
- the catalog `promptLibrary` (a JS object of objects, string-keyed, whose
  key order is insertion order) is an association list;
- JS string operations (`toLowerCase`, `includes`, `substring`, `length`)
  are modelled on the character list of a `String` (all embedded content is
  ASCII, so JS UTF-16 code units coincide with characters);
- the relevance counter `content.toLowerCase().match(new RegExp(lowerKeyword, "g"))`
  interpolates the keyword, unescaped, into a regular expression.  The
  model `jsCountMatches` implements global regex match counting for a
  fragment of the pattern language only: literal characters plus the
  `.` wildcard (which matches any character except a line terminator), and
  the empty pattern (which produces one empty match per position,
  `length + 1` in total).  Patterns containing any other metacharacter
  (quantifiers, anchors, groups, classes, alternation, escapes) are outside
  the model: the engine would interpret or reject them, while the model
  treats them as literal characters.  Theorems about keyword relevance are
  therefore stated under the `regexSafe` hypothesis (no metacharacter at
  all), where a pattern denotes exactly its literal self, except for the
  explicitly modelled `.` pattern;
- `categoryPrompts[name]` in the `get_prompt` handler is a property access
  on an object literal, so an unregistered `name` can still find a truthy
  member inherited from `Object.prototype` (for example `toString`); the
  model carries that prototype chain explicitly.
-/

set_option maxRecDepth 1000000

namespace PromptLib

/-- Models `JavaScript` `s.toLowerCase()` character by character (ASCII content). -/
def lowerStr (s : String) : String := ⟨s.data.map Char.toLower⟩

/-- Models `JavaScript` `s.toUpperCase()` character by character (ASCII content). -/
def upperStr (s : String) : String := ⟨s.data.map Char.toUpper⟩

/-- Helper for `strIncludes`: does `pat` occur (as a contiguous run) in the list? -/
def includesAux (pat : List Char) : List Char → Bool
  | [] => pat.isEmpty
  | c :: cs => pat.isPrefixOf (c :: cs) || includesAux pat cs

/-- Models `JavaScript` `s.includes(pat)`: literal (non-regex) substring test. -/
def strIncludes (s pat : String) : Bool := includesAux pat.data s.data

/-- One step of the modelled regex engine: does the pattern match a prefix of
`s`?  A literal pattern character matches itself; the `.` wildcard matches any
character other than a line terminator.  Every pattern element consumes
exactly one character, so a successful match consumes `pat.length` characters. -/
def patMatchAt : List Char → List Char → Bool
  | [], _ => true
  | _ :: _, [] => false
  | p :: ps, c :: cs => (if p = '.' then c != '\n' else p == c) && patMatchAt ps cs

/-- Fuel-indexed global match counter (fuel makes the recursion structural so
that concrete instances evaluate).  At each position: if the pattern matches,
count it and resume after the matched text (after one character for an empty
match, mirroring the `lastIndex` bump of a `JavaScript` global regex);
otherwise advance one character. -/
def jsCountAux (pat : List Char) : Nat → List Char → Nat
  | _ + 1, [] => if patMatchAt pat [] then 1 else 0
  | fuel + 1, c :: cs =>
    if patMatchAt pat (c :: cs) then 1 + jsCountAux pat fuel (cs.drop (pat.length - 1))
    else jsCountAux pat fuel cs
  | 0, _ => 0

/-- Models `(s.match(new RegExp(pat, "g")) || []).length` for the pattern
fragment described in the header: the number of non-overlapping, left-to-right
matches of `pat` in `s`. -/
def jsCountMatches (pat s : String) : Nat := jsCountAux pat.data (s.data.length + 1) s.data

/-- Modelled from the spec: the count of non-overlapping occurrences of the
keyword within the body, scanning left to right (the keyword taken literally,
not as a regex).  Fuel-indexed like `jsCountAux`. -/
def specCountAux (kw : List Char) : Nat → List Char → Nat
  | _, [] => 0
  | fuel + 1, c :: cs =>
    if kw.isPrefixOf (c :: cs) then 1 + specCountAux kw fuel (cs.drop (kw.length - 1))
    else specCountAux kw fuel cs
  | 0, _ :: _ => 0

/-- Modelled from the spec: non-overlapping literal occurrence count of `kw` in `s`. -/
def specCountOccurrences (kw s : String) : Nat := specCountAux kw.data (s.data.length + 1) s.data

/-- The metacharacters of the `JavaScript` regular-expression pattern syntax.
A pattern containing none of them is matched by the engine exactly as its
literal self. -/
def regexMetachars : List Char :=
  ['.', '*', '+', '?', '^', '$', '(', ')', '[', ']', '\x7b', '\x7d', '|', '\\']

/-- Does the string contain no regex metacharacter?  Such a keyword, passed
unescaped to `new RegExp`, denotes the literal substring pattern, which is the
domain on which `jsCountMatches` is a faithful model of the engine. -/
def regexSafe (s : String) : Bool := s.data.all fun c => !(regexMetachars.contains c)

/-- Modelled from the spec: the relevance of a matched prompt is +10 if the
lower-cased keyword occurs in the lower-cased name, plus the count of
non-overlapping, case-insensitive literal occurrences of the keyword in the body. -/
def claimedRelevance (keyword name content : String) : Nat :=
  (if strIncludes (lowerStr name) (lowerStr keyword) then 10 else 0) +
    specCountOccurrences (lowerStr keyword) (lowerStr content)

/-- Embedded markdown content (verbatim from the source `prompt.ts`). -/
def componentCreationPrompt : String :=
  "# React Component Creation\n\nYou are an expert React developer. When creating React components:\n\n## Guidelines:\n- Use functional components with hooks\n- Follow TypeScript best practices\n- Implement proper prop validation with TypeScript interfaces\n- Use descriptive component and prop names\n- Include proper error boundaries where appropriate\n- Follow React best practices for performance (memo, useMemo, useCallback when needed)\n- Use modern React patterns (hooks, context, suspense)\n\n## Component Structure:\n1. Import statements\n2. TypeScript interfaces/types\n3. Component definition\n4. Default props (if needed)\n5. Export statement\n\n## Example Pattern:\n\x60\x60\x60typescript\nimport React, \x7b useState, useCallback \x7d from \x27react\x27;\n\ninterface ComponentProps \x7b\n  title: string;\n  onAction?: (data: string) => void;\n  isLoading?: boolean;\n\x7d\n\nconst Component: React.FC<ComponentProps> = (\x7b \n  title, \n  onAction, \n  isLoading = false \n\x7d) => \x7b\n  // Component logic here\n  \n  return (\n    <div>\n      \x7b/* JSX here */\x7d\n    </div>\n  );\n\x7d;\n\nexport default Component;\n\x60\x60\x60\n\nAlways prioritize accessibility, performance, and maintainability."

/-- Embedded markdown content (verbatim from the source `prompt.ts`). -/
def stateManagementPrompt : String :=
  "# React State Management\n\nYou are an expert in React state management. When working with state:\n\n## State Management Guidelines:\n- Use \x60useState\x60 for local component state\n- Use \x60useReducer\x60 for complex state logic\n- Use \x60useContext\x60 for shared state across components\n- Consider external libraries (Redux, Zustand) for complex global state\n- Always use immutable updates\n- Avoid unnecessary re-renders with proper memoization\n\n## Hook Usage:\n- \x60useState\x60: Simple local state\n- \x60useEffect\x60: Side effects and lifecycle management\n- \x60useMemo\x60: Expensive calculations\n- \x60useCallback\x60: Function memoization\n- \x60useRef\x60: DOM access and persistent values\n- \x60useContext\x60: Consuming context values\n\n## State Update Patterns:\n\x60\x60\x60typescript\n// Object state updates\nsetState(prev => (\x7b ...prev, newProperty: value \x7d));\n\n// Array state updates\nsetItems(prev => [...prev, newItem]);\nsetItems(prev => prev.filter(item => item.id !== id));\n\n// Complex state with useReducer\nconst [state, dispatch] = useReducer(reducer, initialState);\n\x60\x60\x60\n\n## Performance Considerations:\n- Use React.memo for component memoization\n- Split state to avoid unnecessary re-renders\n- Use callback pattern for state updates\n- Consider state colocation principles\n\nAlways ensure predictable state updates and avoid side effects in render functions."

/-- Embedded markdown content (verbatim from the source `prompt.ts`). -/
def performanceOptimizationPrompt : String :=
  "# Frontend Performance Optimization\n\nYou are an expert in frontend performance optimization. When optimizing web applications:\n\n## Core Web Vitals:\n- **Largest Contentful Paint (LCP)**: < 2.5s\n- **First Input Delay (FID)**: < 100ms\n- **Cumulative Layout Shift (CLS)**: < 0.1\n\n## Optimization Strategies:\n\n### Loading Performance:\n- Implement code splitting and lazy loading\n- Optimize images (WebP, AVIF, proper sizing)\n- Use efficient bundling strategies\n- Implement proper caching strategies\n- Minimize and compress assets\n- Use CDN for static assets\n\n### Runtime Performance:\n- Avoid blocking the main thread\n- Implement virtual scrolling for large lists\n- Use web workers for heavy computations\n- Optimize DOM manipulations\n- Implement efficient event handling\n- Use requestAnimationFrame for animations\n\n### Memory Management:\n- Clean up event listeners and subscriptions\n- Avoid memory leaks in closures\n- Use WeakMap/WeakSet for caching\n- Implement proper garbage collection patterns\n\n### Bundle Optimization:\n- Tree shaking for unused code\n- Module federation for micro-frontends\n- Dynamic imports for route-based splitting\n- Analyze bundle size regularly\n\n## Measurement Tools:\n- Lighthouse\n- Chrome DevTools Performance tab\n- Web Vitals extension\n- Bundle analyzers\n\nAlways measure before and after optimizations to validate improvements."

/-- Embedded markdown content (verbatim from the source `prompt.ts`). -/
def accessibilityPrompt : String :=
  "# Frontend Accessibility (A11y)\n\nYou are an expert in web accessibility. When developing accessible web applications:\n\n## WCAG 2.1 Guidelines:\n- **Perceivable**: Information must be presentable in ways users can perceive\n- **Operable**: Interface components must be operable\n- **Understandable**: Information and UI operation must be understandable\n- **Robust**: Content must be robust enough for various assistive technologies\n\n## Key Accessibility Practices:\n\n### Semantic HTML:\n- Use proper heading hierarchy (h1-h6)\n- Use semantic elements (nav, main, article, section, aside)\n- Implement proper form labels and fieldsets\n- Use lists for grouped content\n- Provide alternative text for images\n\n### ARIA Implementation:\n- Use ARIA labels and descriptions appropriately\n- Implement proper ARIA roles\n- Manage focus and keyboard navigation\n- Use ARIA live regions for dynamic content\n- Implement skip links for navigation\n\n### Keyboard Navigation:\n- Ensure all interactive elements are keyboard accessible\n- Implement proper focus management\n- Use logical tab order\n- Provide visible focus indicators\n- Support standard keyboard shortcuts\n\n### Color and Contrast:\n- Maintain minimum contrast ratios (4.5:1 for normal text, 3:1 for large text)\n- Don\x27t rely solely on color for information\n- Support high contrast modes\n- Test with colorblindness simulators\n\n### Screen Reader Support:\n- Test with screen readers (NVDA, JAWS, VoiceOver)\n- Provide meaningful text alternatives\n- Use proper heading structure\n- Implement descriptive link text\n\n## Testing Tools:\n- axe-core browser extension\n- Lighthouse accessibility audit\n- Screen reader testing\n- Keyboard-only navigation testing\n- Color contrast analyzers\n\nAlways test with real users and assistive technologies when possible."

/-- Embedded markdown content (verbatim from the source `prompt.ts`). -/
def codeQualityPrompt : String :=
  "# Code Quality and Best Practices\n\nYou are an expert software developer focused on code quality. When writing and reviewing code:\n\n## Code Quality Principles:\n\n### Clean Code:\n- Write self-documenting code with clear variable and function names\n- Keep functions small and focused on single responsibility\n- Use consistent naming conventions\n- Avoid deep nesting and complex conditional logic\n- Write meaningful comments for complex business logic\n- Remove dead code and unused imports\n\n### SOLID Principles:\n- **Single Responsibility**: Each class/function should have one reason to change\n- **Open/Closed**: Open for extension, closed for modification\n- **Liskov Substitution**: Derived classes must be substitutable for base classes\n- **Interface Segregation**: Clients shouldn\x27t depend on interfaces they don\x27t use\n- **Dependency Inversion**: Depend on abstractions, not concretions\n\n### Error Handling:\n- Implement comprehensive error handling\n- Use appropriate error types and messages\n- Log errors with sufficient context\n- Provide graceful fallbacks\n- Validate inputs and handle edge cases\n\n### Testing:\n- Write unit tests for all business logic\n- Implement integration tests for critical paths\n- Use test-driven development (TDD) when appropriate\n- Maintain high test coverage (aim for 80%+)\n- Write clear, descriptive test names\n\n### Code Organization:\n- Use consistent file and folder structure\n- Implement proper separation of concerns\n- Follow established architectural patterns\n- Use meaningful module boundaries\n- Document architectural decisions\n\n### Performance:\n- Optimize for readability first, performance second\n- Avoid premature optimization\n- Profile before optimizing\n- Use appropriate data structures and algorithms\n- Consider memory usage and garbage collection\n\nAlways prioritize maintainability and readability over clever solutions."

/-- The catalog type: category name to (prompt name to body), with key order =
insertion order, as for string-keyed `JavaScript` objects. -/
abbrev PromptLibrary := List (String × List (String × String))

/-- The `react` category entries, in registration order. -/
def reactPrompts : List (String × String) :=
  [("component-creation", componentCreationPrompt),
   ("state-management", stateManagementPrompt)]

/-- The `fe` category entries, in registration order. -/
def fePrompts : List (String × String) :=
  [("performance-optimization", performanceOptimizationPrompt),
   ("accessibility", accessibilityPrompt)]

/-- The `common` category entries, in registration order. -/
def commonPrompts : List (String × String) :=
  [("code-quality", codeQualityPrompt)]

/-- The catalog installed by `loadPrompts` on success. -/
def defaultLibrary : PromptLibrary :=
  [("react", reactPrompts), ("fe", fePrompts), ("common", commonPrompts)]

/-- Models `loadPrompts`: the try block installs the fixed content; the catch
branch logs and resets the catalog to the empty mapping. -/
def loadPrompts (ok : Bool) : PromptLibrary := if ok then defaultLibrary else []

/-- A one-prompt catalog used to instantiate the generic theorems at small inputs. -/
def tinyLibrary : PromptLibrary := [("react", [("alpha", "beta gamma beta")])]

/-- Result payload of `get_categories`. -/
structure CategoriesResult where
  categories : List String
  description : String
deriving DecidableEq

/-- Result of `get_prompts_by_category`: either the structured not-found error
or the (name, content) list with its count. -/
inductive PromptsByCategoryResult where
  | categoryNotFound (category : String)
  | found (category : String) (prompts : List (String × String)) (count : Nat)
deriving DecidableEq

/-- The member names every object literal inherits from `Object.prototype`.
A property access `obj[name]` on an object without an own property `name`
finds these (all of them functions or objects, hence truthy). -/
def objectProtoMembers : List String :=
  ["constructor", "hasOwnProperty", "isPrototypeOf", "propertyIsEnumerable",
   "toLocaleString", "toString", "valueOf", "__proto__",
   "__defineGetter__", "__defineSetter__", "__lookupGetter__", "__lookupSetter__"]

/-- Result of `get_prompt`.  `inheritedMember` models the success-shaped content
payload the handler returns when `categoryPrompts[name]` finds a truthy member
inherited from `Object.prototype` rather than a registered prompt body: the
not-found branch is skipped and the inherited member itself is placed in the
`text` field. -/
inductive GetPromptResult where
  | categoryNotFound (category : String)
  | promptNotFound (category name : String)
  | found (body : String)
  | inheritedMember (name : String)
deriving DecidableEq

/-- Success payload of `combine_prompts`. -/
structure CombineData where
  combined_prompt : String
  included_prompts : List (String × String)
  total_prompts : Nat
  categories_processed : List String
deriving DecidableEq

/-- Result of `combine_prompts`: the distinct no-prompts-found message or the payload. -/
inductive CombineResult where
  | noPromptsFound
  | combined (r : CombineData)
deriving DecidableEq

/-- An entry of the internal `searchResults` array (pre-sort, still carrying content). -/
structure SearchMatch where
  category : String
  name : String
  content : String
  relevance : Nat
deriving DecidableEq

/-- An entry of the emitted `results` list. -/
structure SearchEntry where
  category : String
  name : String
  relevance : Nat
  snippet : String
deriving DecidableEq

/-- Result payload of `search_prompts`. -/
structure SearchResult where
  keyword : String
  results : List SearchEntry
  total_found : Nat
deriving DecidableEq

/-- Models the `get_categories` tool: `Object.keys(this.promptLibrary)` plus the
fixed description. -/
def get_categories (lib : PromptLibrary) : CategoriesResult :=
  ⟨lib.map (·.1), "Available prompt categories in the library"⟩

/-- Models the `get_prompts_by_category` tool: absent category reports the
not-found error; otherwise the (name, content) pairs in key order with count. -/
def get_prompts_by_category (lib : PromptLibrary) (category : String) :
    PromptsByCategoryResult :=
  match lib.lookup category with
  | none => .categoryNotFound category
  | some ps => .found category ps ps.length

/-- Models the `get_prompt` tool.  `categoryPrompts[name]` is `JavaScript`
property access: an own property (a registered prompt) shadows the prototype;
otherwise the name can still hit a truthy `Object.prototype` member; otherwise
the access is `undefined`.  `if (!prompt)` is true both for `undefined` and for
an empty-string body, hence the extra emptiness test on the own-property
branch. -/
def get_prompt (lib : PromptLibrary) (category name : String) : GetPromptResult :=
  match lib.lookup category with
  | none => .categoryNotFound category
  | some ps =>
    match ps.lookup name with
    | some body => if body = "" then .promptNotFound category name else .found body
    | none =>
      if name ∈ objectProtoMembers then .inheritedMember name
      else .promptNotFound category name

/-- One block of the combined output: category header, prompt header, blank
line, body. -/
def combineBlock (category name content : String) : String :=
  "# Category: " ++ upperStr category ++ "\n# Prompt: " ++ name ++ "\n\n" ++ content

/-- The blocks accumulated by the `combine_prompts` loop: for each requested
category, in order, the blocks of its prompts in key order; absent categories
contribute nothing. -/
def combineBlocks (lib : PromptLibrary) (categories : List String) : List String :=
  categories.flatMap fun category =>
    match lib.lookup category with
    | none => []
    | some ps => ps.map fun p => combineBlock category p.1 p.2

/-- The (category, name) pairs accumulated by the `combine_prompts` loop. -/
def includedPrompts (lib : PromptLibrary) (categories : List String) :
    List (String × String) :=
  categories.flatMap fun category =>
    match lib.lookup category with
    | none => []
    | some ps => ps.map fun p => (category, p.1)

/-- Models `Array.prototype.join(sep)`: blocks interleaved with the separator,
no leading or trailing separator. -/
def joinSep (sep : String) : List String → String
  | [] => ""
  | [b] => b
  | b :: bs => b ++ sep ++ joinSep sep bs

/-- The default separator `"\n\n---\n\n"` of `combine_prompts`. -/
def defaultSeparator : String := "\n\n\x2d\x2d\x2d\n\n"

/-- Models the `combine_prompts` tool: zero blocks yield the distinct
no-prompts-found result, otherwise the joined text with bookkeeping fields. -/
def combine_prompts (lib : PromptLibrary) (categories : List String)
    (separator : String := defaultSeparator) : CombineResult :=
  let blocks := combineBlocks lib categories
  if blocks.isEmpty then .noPromptsFound
  else .combined ⟨joinSep separator blocks, includedPrompts lib categories,
    blocks.length, categories⟩

/-- The combined text of a `combine_prompts` result (empty for the degenerate case). -/
def combinedTextOf : CombineResult → String
  | .noPromptsFound => ""
  | .combined r => r.combined_prompt

/-- The matches discovered by the `search_prompts` loop, in discovery order
(category iteration order, then key order within a category).  A prompt
matches when the lower-cased keyword occurs literally in the lower-cased body
or name; its relevance is +10 for a name hit plus the global regex match count
of the keyword in the lower-cased body. -/
def searchMatches (lib : PromptLibrary) (keyword : String)
    (categories : Option (List String)) : List SearchMatch :=
  let searchCategories := categories.getD (lib.map (·.1))
  searchCategories.flatMap fun category =>
    match lib.lookup category with
    | none => []
    | some ps => ps.filterMap fun p =>
        if strIncludes (lowerStr p.2) (lowerStr keyword)
            || strIncludes (lowerStr p.1) (lowerStr keyword) then
          some ⟨category, p.1, p.2,
            (if strIncludes (lowerStr p.1) (lowerStr keyword) then 10 else 0)
              + jsCountMatches (lowerStr keyword) (lowerStr p.2)⟩
        else none

/-- The comparator of the `searchResults.sort((a, b) => b.relevance - a.relevance)`
call: `a` may precede `b` iff `b.relevance ≤ a.relevance` (descending order). -/
def byRelevanceDesc (a b : SearchMatch) : Prop := b.relevance ≤ a.relevance

instance : DecidableRel byRelevanceDesc := fun a b => Nat.decLe b.relevance a.relevance

instance : IsTotal SearchMatch byRelevanceDesc :=
  ⟨fun a b => Nat.le_total b.relevance a.relevance⟩

instance : IsTrans SearchMatch byRelevanceDesc :=
  ⟨fun _ _ _ h h' => Nat.le_trans h' h⟩

/-- Models `content.substring(0, 200) + (content.length > 200 ? "..." : "")`. -/
def snippetOf (content : String) : String :=
  ⟨content.data.take 200⟩ ++ (if 200 < content.data.length then "..." else "")

/-- Projection of an internal match to an emitted result entry. -/
def toEntry (m : SearchMatch) : SearchEntry :=
  ⟨m.category, m.name, m.relevance, snippetOf m.content⟩

/-- Models the `search_prompts` tool: discover matches, sort them in place by
descending relevance (`Array.prototype.sort` is stable, modelled by a stable
insertion sort), and emit entries with snippets plus the total count. -/
def search_prompts (lib : PromptLibrary) (keyword : String)
    (categories : Option (List String)) : SearchResult :=
  let searchResults := searchMatches lib keyword categories
  let sorted := List.insertionSort byRelevanceDesc searchResults
  ⟨keyword, sorted.map toEntry, searchResults.length⟩

/-- The categories actually iterated by `search_prompts`: the requested list,
or every key of the catalog when the argument is omitted. -/
def resolvedCategories (lib : PromptLibrary) (categories : Option (List String)) :
    List String :=
  categories.getD (lib.map (·.1))

/-- All (category, name, body) triples of the given categories, in iteration order. -/
def promptsIn (lib : PromptLibrary) (categories : List String) :
    List (String × String × String) :=
  categories.flatMap fun category =>
    match lib.lookup category with
    | none => []
    | some ps => ps.map fun p => (category, p.1, p.2)

/-- A request to one of the five tools, with its validated parameters. -/
inductive Request where
  | categoriesReq
  | promptsByCategoryReq (category : String)
  | promptReq (category name : String)
  | combineReq (categories : List String) (separator : String)
  | searchReq (keyword : String) (categories : Option (List String))

/-- The response to a request. -/
inductive Response where
  | categories (r : CategoriesResult)
  | promptsByCategory (r : PromptsByCategoryResult)
  | prompt (r : GetPromptResult)
  | combined (r : CombineResult)
  | search (r : SearchResult)

/-- The agent as a state machine: the state is the catalog built at startup;
each tool handler reads it and never assigns to it (as in the source, where
only `loadPrompts` writes `this.promptLibrary`). -/
def step (lib : PromptLibrary) : Request → Response × PromptLibrary
  | .categoriesReq => (.categories (get_categories lib), lib)
  | .promptsByCategoryReq category => (.promptsByCategory (get_prompts_by_category lib category), lib)
  | .promptReq category name => (.prompt (get_prompt lib category name), lib)
  | .combineReq categories separator => (.combined (combine_prompts lib categories separator), lib)
  | .searchReq keyword categories => (.search (search_prompts lib keyword categories), lib)

/-! Helper lemmas. -/

theorem data_lowerStr (s : String) : (lowerStr s).data = s.data.map Char.toLower := rfl

theorem length_data_lowerStr (s : String) : (lowerStr s).data.length = s.data.length := by
  simp [lowerStr]

theorem strMk_data (s : String) : String.mk s.data = s := by cases s; rfl

theorem data_ne_nil_of_ne_empty {s : String} (h : s ≠ "") : s.data ≠ [] := by
  intro e
  apply h
  have : s = String.mk s.data := (strMk_data s).symm
  rw [this, e]

theorem includesAux_nil_pat : ∀ l : List Char, includesAux [] l = true := by
  intro l
  cases l <;> simp [includesAux, List.isPrefixOf, List.isEmpty]

theorem strIncludes_empty_pat (s : String) : strIncludes s "" = true :=
  includesAux_nil_pat s.data

theorem lowerStr_empty_eq : lowerStr "" = "" := rfl

theorem length_lowerStr (s : String) : (lowerStr s).length = s.length := by
  show (s.data.map Char.toLower).length = s.data.length
  exact List.length_map _ _

theorem jsCountAux_congr (pat : List Char) :
    ∀ f₁ f₂ s, s.length < f₁ → s.length < f₂ →
      jsCountAux pat f₁ s = jsCountAux pat f₂ s := by
  intro f₁
  induction f₁ with
  | zero => intro f₂ s h₁ _; exact absurd h₁ (Nat.not_lt_zero _)
  | succ f ih =>
    intro f₂ s h₁ h₂
    cases f₂ with
    | zero => exact absurd h₂ (Nat.not_lt_zero _)
    | succ g =>
      cases s with
      | nil => rfl
      | cons c cs =>
        simp only [jsCountAux]
        have hlen : ∀ k : Nat, (cs.drop k).length < f := by
          intro k
          simp only [List.length_drop]
          simp only [List.length_cons] at h₁
          omega
        have hlen' : ∀ k : Nat, (cs.drop k).length < g := by
          intro k
          simp only [List.length_drop]
          simp only [List.length_cons] at h₂
          omega
        have hcs : cs.length < f := by simp only [List.length_cons] at h₁; omega
        have hcs' : cs.length < g := by simp only [List.length_cons] at h₂; omega
        split
        · rw [ih g _ (hlen _) (hlen' _)]
        · rw [ih g _ hcs hcs']

theorem jsCountAux_nil_pat : ∀ fuel s, List.length s < fuel → jsCountAux [] fuel s = s.length + 1 := by
  intro fuel
  induction fuel with
  | zero => intro s h; exact absurd h (Nat.not_lt_zero _)
  | succ f ih =>
    intro s h
    cases s with
    | nil => simp [jsCountAux, patMatchAt]
    | cons c cs =>
      have hlt : cs.length < f := by simp only [List.length_cons] at h; omega
      have hd : List.drop (List.length ([] : List Char) - 1) cs = cs := by simp
      simp only [jsCountAux, patMatchAt, if_true, hd, ih cs hlt, List.length_cons]
      omega

theorem patMatchAt_eq_isPrefixOf :
    ∀ pat : List Char, '.' ∉ pat → ∀ s, patMatchAt pat s = pat.isPrefixOf s := by
  intro pat
  induction pat with
  | nil => intro _ s; cases s <;> rfl
  | cons p ps ih =>
    intro h s
    have hp : ¬ p = '.' := fun e => h (e ▸ List.mem_cons_self p ps)
    have hps : '.' ∉ ps := fun m => h (List.mem_cons_of_mem p m)
    cases s with
    | nil => rfl
    | cons c cs => simp only [patMatchAt, List.isPrefixOf, if_neg hp, ih hps]

theorem jsCountAux_eq_specCountAux :
    ∀ pat : List Char, pat ≠ [] → '.' ∉ pat →
      ∀ fuel s, jsCountAux pat fuel s = specCountAux pat fuel s := by
  intro pat hne hdot fuel
  induction fuel with
  | zero => intro s; cases s <;> rfl
  | succ f ih =>
    intro s
    cases s with
    | nil =>
      cases pat with
      | nil => exact absurd rfl hne
      | cons p ps => simp [jsCountAux, specCountAux, patMatchAt]
    | cons c cs =>
      simp only [jsCountAux, specCountAux, patMatchAt_eq_isPrefixOf pat hdot, ih]

theorem jsCountMatches_eq_specCount (pat s : String) (h : pat ≠ "") (hd : '.' ∉ pat.data) :
    jsCountMatches pat s = specCountOccurrences pat s :=
  jsCountAux_eq_specCountAux pat.data (data_ne_nil_of_ne_empty h) hd _ _

theorem jsCountMatches_empty_pat (s : String) : jsCountMatches "" s = s.data.length + 1 :=
  jsCountAux_nil_pat _ _ (Nat.lt_succ_self _)

theorem joinSep_append (sep : String) :
    ∀ xs ys : List String, xs ≠ [] → ys ≠ [] →
      joinSep sep (xs ++ ys) = joinSep sep xs ++ sep ++ joinSep sep ys := by
  intro xs
  induction xs with
  | nil => intro ys h _; exact absurd rfl h
  | cons x xs ih =>
    intro ys _ hys
    cases xs with
    | nil =>
      cases ys with
      | nil => exact absurd rfl hys
      | cons y ys' => simp [joinSep]
    | cons x' xs' =>
      have h1 : x' :: xs' ≠ [] := by simp
      calc joinSep sep ((x :: x' :: xs') ++ ys)
          = x ++ sep ++ joinSep sep ((x' :: xs') ++ ys) := by simp [joinSep]
        _ = x ++ sep ++ (joinSep sep (x' :: xs') ++ sep ++ joinSep sep ys) := by
            rw [ih ys h1 hys]
        _ = (x ++ sep ++ joinSep sep (x' :: xs')) ++ sep ++ joinSep sep ys := by
            simp [String.append_assoc]
        _ = joinSep sep (x :: x' :: xs') ++ sep ++ joinSep sep ys := by simp [joinSep]

theorem combineBlocks_append (lib : PromptLibrary) (xs ys : List String) :
    combineBlocks lib (xs ++ ys) = combineBlocks lib xs ++ combineBlocks lib ys := by
  simp [combineBlocks]

theorem includedPrompts_append (lib : PromptLibrary) (xs ys : List String) :
    includedPrompts lib (xs ++ ys) = includedPrompts lib xs ++ includedPrompts lib ys := by
  simp [includedPrompts]

theorem combineBlocks_nil_lib (cats : List String) : combineBlocks [] cats = [] := by
  induction cats with
  | nil => rfl
  | cons c cs ih => simp [combineBlocks]

theorem lookup_eq_none_of_not_mem_keys (ps : List (String × String)) (n : String)
    (h : n ∉ ps.map Prod.fst) : ps.lookup n = none := by
  rw [List.lookup_eq_none_iff]
  intro p hp
  simp only [bne_iff_ne]
  intro e
  exact h (e ▸ List.mem_map_of_mem Prod.fst hp)

theorem lookup_defaultLibrary (c : String) :
    List.lookup c defaultLibrary =
      if c = "react" then some reactPrompts
      else if c = "fe" then some fePrompts
      else if c = "common" then some commonPrompts
      else none := by
  by_cases h1 : c = "react"
  · subst h1; rfl
  · rw [if_neg h1]
    by_cases h2 : c = "fe"
    · subst h2; rfl
    · rw [if_neg h2]
      by_cases h3 : c = "common"
      · subst h3; rfl
      · rw [if_neg h3]
        simp only [defaultLibrary, List.lookup_cons,
          beq_eq_false_iff_ne.mpr h1, beq_eq_false_iff_ne.mpr h2,
          beq_eq_false_iff_ne.mpr h3, List.lookup_nil]

theorem get_prompt_of_lookup (lib : PromptLibrary) (category name : String)
    (ps : List (String × String)) (body : String)
    (hc : lib.lookup category = some ps) (hn : ps.lookup name = some body)
    (hb : body ≠ "") :
    get_prompt lib category name = .found body := by
  simp [get_prompt, hc, hn, hb]

theorem eq_empty_of_data_eq_nil {s : String} (h : s.data = []) : s = "" := by
  rw [← strMk_data s, h]

theorem lowerStr_ne_empty {s : String} (h : s ≠ "") : lowerStr s ≠ "" := by
  intro e
  apply h
  apply eq_empty_of_data_eq_nil
  have hd : (lowerStr s).data = ("" : String).data := congrArg String.data e
  rw [data_lowerStr] at hd
  exact List.map_eq_nil_iff.mp hd

theorem get_prompt_found_of_mem_default :
    ∀ category ps, List.lookup category defaultLibrary = some ps →
      ∀ n b, (n, b) ∈ ps → get_prompt defaultLibrary category n = .found b := by
  intro category ps h n b hb
  rw [lookup_defaultLibrary] at h
  split_ifs at h with h1 h2 h3
  · injection h with h'
    subst h1
    subst h'
    simp only [reactPrompts, List.mem_cons, List.not_mem_nil, or_false,
      Prod.mk.injEq] at hb
    rcases hb with ⟨rfl, rfl⟩ | ⟨rfl, rfl⟩
    · exact get_prompt_of_lookup _ _ _ _ _ rfl rfl (by decide)
    · exact get_prompt_of_lookup _ _ _ _ _ rfl rfl (by decide)
  · injection h with h'
    subst h2
    subst h'
    simp only [fePrompts, List.mem_cons, List.not_mem_nil, or_false,
      Prod.mk.injEq] at hb
    rcases hb with ⟨rfl, rfl⟩ | ⟨rfl, rfl⟩
    · exact get_prompt_of_lookup _ _ _ _ _ rfl rfl (by decide)
    · exact get_prompt_of_lookup _ _ _ _ _ rfl rfl (by decide)
  · injection h with h'
    subst h3
    subst h'
    simp only [commonPrompts, List.mem_cons, List.not_mem_nil, or_false,
      Prod.mk.injEq] at hb
    rcases hb with ⟨rfl, rfl⟩
    exact get_prompt_of_lookup _ _ _ _ _ rfl rfl (by decide)

theorem relevance_of_mem_searchMatches (lib : PromptLibrary) (kw : String)
    (cats : Option (List String)) (m : SearchMatch)
    (hm : m ∈ searchMatches lib kw cats) :
    m.relevance = (if strIncludes (lowerStr m.name) (lowerStr kw) then 10 else 0)
      + jsCountMatches (lowerStr kw) (lowerStr m.content) := by
  simp only [searchMatches, List.mem_flatMap] at hm
  obtain ⟨category, _, hm⟩ := hm
  cases h : List.lookup category lib with
  | none => rw [h] at hm; simp at hm
  | some ps =>
    rw [h] at hm
    simp only [List.mem_filterMap] at hm
    obtain ⟨p, _, hp⟩ := hm
    by_cases hc : (strIncludes (lowerStr p.2) (lowerStr kw)
        || strIncludes (lowerStr p.1) (lowerStr kw)) = true
    · rw [if_pos hc] at hp
      cases hp
      rfl
    · rw [if_neg hc] at hp
      cases hp

theorem mem_results_of_mem_searchMatches (lib : PromptLibrary) (kw : String)
    (cats : Option (List String)) (m : SearchMatch)
    (hm : m ∈ searchMatches lib kw cats) :
    toEntry m ∈ (search_prompts lib kw cats).results := by
  simp only [search_prompts]
  exact List.mem_map_of_mem toEntry ((List.mem_insertionSort byRelevanceDesc).mpr hm)

theorem orderedInsert_filter_relevance (v : Nat) (a : SearchMatch) :
    ∀ l : List SearchMatch,
      (List.orderedInsert byRelevanceDesc a l).filter (fun m => m.relevance == v) =
        if a.relevance = v then a :: l.filter (fun m => m.relevance == v)
        else l.filter (fun m => m.relevance == v) := by
  intro l
  induction l with
  | nil =>
    simp only [List.orderedInsert, List.filter]
    by_cases hv : a.relevance = v
    · simp [hv]
    · simp [hv, beq_eq_false_iff_ne.mpr hv]
  | cons b l ih =>
    simp only [List.orderedInsert]
    by_cases hab : byRelevanceDesc a b
    · rw [if_pos hab]
      by_cases hv : a.relevance = v
      · simp [List.filter, hv]
      · simp [List.filter, beq_eq_false_iff_ne.mpr hv, hv]
    · rw [if_neg hab]
      have hlt : a.relevance < b.relevance := by
        simp only [byRelevanceDesc, Nat.not_le] at hab
        exact hab
      by_cases hbv : b.relevance = v
      · have hav : ¬ a.relevance = v := by omega
        simp [List.filter_cons, ih, hav, hbv]
      · by_cases hav : a.relevance = v
        · simp [List.filter_cons, ih, hav, hbv]
        · simp [List.filter_cons, ih, hav, hbv]

theorem insertionSort_filter_relevance (v : Nat) :
    ∀ l : List SearchMatch,
      (List.insertionSort byRelevanceDesc l).filter (fun m => m.relevance == v) =
        l.filter (fun m => m.relevance == v) := by
  intro l
  induction l with
  | nil => rfl
  | cons a l ih =>
    simp only [List.insertionSort, orderedInsert_filter_relevance, ih]
    by_cases hv : a.relevance = v
    · simp [List.filter, hv]
    · simp [List.filter, hv, beq_eq_false_iff_ne.mpr hv]

theorem filterMap_empty_keyword (category : String) :
    ∀ ps : List (String × String),
      (ps.filterMap fun p =>
        if strIncludes (lowerStr p.2) (lowerStr "") || strIncludes (lowerStr p.1) (lowerStr "") then
          some (⟨category, p.1, p.2,
            (if strIncludes (lowerStr p.1) (lowerStr "") then 10 else 0)
              + jsCountMatches (lowerStr "") (lowerStr p.2)⟩ : SearchMatch)
        else none) =
      ps.map fun p => (⟨category, p.1, p.2, 10 + (p.2.data.length + 1)⟩ : SearchMatch) := by
  intro ps
  have hf : (fun (p : String × String) =>
      if strIncludes (lowerStr p.2) (lowerStr "") || strIncludes (lowerStr p.1) (lowerStr "") then
        some (⟨category, p.1, p.2,
          (if strIncludes (lowerStr p.1) (lowerStr "") then 10 else 0)
            + jsCountMatches (lowerStr "") (lowerStr p.2)⟩ : SearchMatch)
      else none) =
      some ∘ (fun p => (⟨category, p.1, p.2, 10 + (p.2.data.length + 1)⟩ : SearchMatch)) := by
    funext p
    simp [lowerStr_empty_eq, strIncludes_empty_pat, jsCountMatches_empty_pat,
      length_data_lowerStr, length_lowerStr]
  rw [hf, List.filterMap_eq_map]

theorem searchMatches_empty_keyword (lib : PromptLibrary) (cats : Option (List String)) :
    searchMatches lib "" cats =
      (promptsIn lib (resolvedCategories lib cats)).map
        (fun t => ⟨t.1, t.2.1, t.2.2, 10 + (t.2.2.data.length + 1)⟩) := by
  simp only [searchMatches, promptsIn, resolvedCategories, List.map_flatMap]
  apply List.flatMap_congr
  intro category _
  cases h : List.lookup category lib with
  | none => rfl
  | some ps =>
    dsimp only
    rw [filterMap_empty_keyword category ps, List.map_map]
    rfl

theorem searchMatches_nil_lib (kw : String) (ocats : Option (List String)) :
    searchMatches [] kw ocats = [] := by
  simp only [searchMatches]
  have h : ∀ cs : List String,
      (cs.flatMap fun category =>
        match List.lookup category ([] : PromptLibrary) with
        | none => ([] : List SearchMatch)
        | some ps => ps.filterMap fun p =>
            if strIncludes (lowerStr p.2) (lowerStr kw)
                || strIncludes (lowerStr p.1) (lowerStr kw) then
              some ⟨category, p.1, p.2,
                (if strIncludes (lowerStr p.1) (lowerStr kw) then 10 else 0)
                  + jsCountMatches (lowerStr kw) (lowerStr p.2)⟩
            else none) = [] := by
    intro cs
    induction cs with
    | nil => rfl
    | cons c cs ih => simp
  exact h _

/-! Claim theorems. -/

/-- C1 (code bug): at the failing input `("react", "toString")` the unguarded
property access finds the truthy member inherited from `Object.prototype`, the
not-found branch is skipped, and the handler returns a success-shaped payload
(neither the prompt-not-found report the claim requires nor any stored body);
an unregistered name that is not a prototype member does report prompt-not-found,
and a registered name returns its stored body. -/
theorem getPrompt_prototype_leak :
    get_prompt defaultLibrary "react" "toString" = .inheritedMember "toString" ∧
    get_prompt defaultLibrary "react" "toString" ≠
      .promptNotFound "react" "toString" ∧
    (∀ body, get_prompt defaultLibrary "react" "toString" ≠ .found body) ∧
    get_prompt defaultLibrary "react" "missing-prompt" =
      .promptNotFound "react" "missing-prompt" ∧
    get_prompt defaultLibrary "fe" "accessibility" = .found accessibilityPrompt := by
  have e : get_prompt defaultLibrary "react" "toString" = .inheritedMember "toString" := by
    decide
  refine ⟨e, ?_, fun body hb => ?_, by decide, ?_⟩
  · rw [e]
    intro h
    exact GetPromptResult.noConfusion h
  · rw [e] at hb
    exact GetPromptResult.noConfusion hb
  · exact get_prompt_found_of_mem_default "fe" fePrompts rfl "accessibility"
      accessibilityPrompt (List.Mem.tail _ (List.Mem.head _))

/-- C3 (amended): when initialization fails the catalog is the empty mapping; the
category-taking queries (`get_prompts_by_category`, `get_prompt`) then report
category-not-found for every input, while `get_categories` returns the empty
category list, `combine_prompts` the no-prompts-found result and `search_prompts`
zero matches; every query is total (nothing throws). -/
theorem emptyCatalog_degrades :
    ∀ (category name sep kw : String) (cats : List String) (ocats : Option (List String)),
      loadPrompts false = ([] : PromptLibrary) ∧
      get_prompts_by_category [] category = .categoryNotFound category ∧
      get_prompt [] category name = .categoryNotFound category ∧
      get_categories ([] : PromptLibrary) =
        ⟨[], "Available prompt categories in the library"⟩ ∧
      combine_prompts [] cats sep = .noPromptsFound ∧
      search_prompts [] kw ocats = ⟨kw, [], 0⟩ := by
  intro category name sep kw cats ocats
  refine ⟨rfl, rfl, rfl, rfl, ?_, ?_⟩
  · simp [combine_prompts, combineBlocks_nil_lib]
  · simp [search_prompts, searchMatches_nil_lib]

/-- C3 counterexample: on the empty catalog, `get_categories` and `search_prompts`
return ordinary success payloads (empty category list; zero-match result), not a
category-not-found report, contradicting the claim that every query on the empty
catalog reports category-not-found. -/
theorem emptyCatalog_counterexample :
    get_categories ([] : PromptLibrary) =
      ⟨[], "Available prompt categories in the library"⟩ ∧
    search_prompts ([] : PromptLibrary) "react" none = ⟨"react", [], 0⟩ := by
  refine ⟨rfl, ?_⟩
  simp [search_prompts, searchMatches_nil_lib]

/-- C4: for every registered category, `get_prompts_by_category` returns exactly
the registered (name, body) pairs in registration order together with their
count, and each returned pair is reachable via `get_prompt` with identical body. -/
theorem listByCategory_exact_and_reachable :
    ∀ category ps, List.lookup category defaultLibrary = some ps →
      get_prompts_by_category defaultLibrary category = .found category ps ps.length ∧
      ∀ n b, (n, b) ∈ ps → get_prompt defaultLibrary category n = .found b := by
  intro category ps h
  exact ⟨by simp [get_prompts_by_category, h],
    fun n b hb => get_prompt_found_of_mem_default category ps h n b hb⟩

/-- Witness for C4 at the `common` category. -/
theorem listByCategory_witness :
    get_prompts_by_category defaultLibrary "common" = .found "common" commonPrompts 1 ∧
    get_prompt defaultLibrary "common" "code-quality" = .found codeQualityPrompt := by
  have h := listByCategory_exact_and_reachable "common" commonPrompts rfl
  exact ⟨h.1, h.2 "code-quality" codeQualityPrompt (List.Mem.head _)⟩

/-- C8: `combine_prompts` silently skips categories that are not in the catalog
(they contribute no blocks and no included pairs), and it returns the distinct
no-prompts-found result exactly when the block count is zero; in particular for
the empty request list and for the empty catalog. -/
theorem combine_skips_and_noPrompts :
    (∀ (lib : PromptLibrary) (xs ys : List String) (c : String),
      List.lookup c lib = none →
        combineBlocks lib (xs ++ c :: ys) = combineBlocks lib (xs ++ ys) ∧
        includedPrompts lib (xs ++ c :: ys) = includedPrompts lib (xs ++ ys)) ∧
    (∀ (lib : PromptLibrary) (cats : List String) (sep : String),
      combine_prompts lib cats sep = .noPromptsFound ↔ combineBlocks lib cats = []) ∧
    (∀ (lib : PromptLibrary) (sep : String),
      combine_prompts lib [] sep = .noPromptsFound) ∧
    (∀ (cats : List String) (sep : String),
      combine_prompts ([] : PromptLibrary) cats sep = .noPromptsFound) := by
  refine ⟨?_, ?_, ?_, ?_⟩
  · intro lib xs ys c hc
    constructor
    · have : (c :: ys : List String) = [c] ++ ys := rfl
      rw [this, combineBlocks_append, combineBlocks_append, combineBlocks_append]
      have hone : combineBlocks lib [c] = [] := by simp [combineBlocks, hc]
      rw [hone, List.nil_append]
    · have : (c :: ys : List String) = [c] ++ ys := rfl
      rw [this, includedPrompts_append, includedPrompts_append, includedPrompts_append]
      have hone : includedPrompts lib [c] = [] := by simp [includedPrompts, hc]
      rw [hone, List.nil_append]
  · intro lib cats sep
    simp only [combine_prompts]
    by_cases hb : (combineBlocks lib cats).isEmpty
    · simp [hb, List.isEmpty_iff.mp hb]
    · have hb' := hb
      rw [Bool.not_eq_true, List.isEmpty_eq_false] at hb'
      simp [hb, hb']
  · intro lib sep
    rfl
  · intro cats sep
    simp [combine_prompts, combineBlocks_nil_lib]

/-- Witness for C8: a category absent from the catalog contributes nothing. -/
theorem combine_skips_witness :
    combineBlocks defaultLibrary (["react"] ++ "missing" :: ["fe"]) =
      combineBlocks defaultLibrary (["react"] ++ ["fe"]) ∧
    includedPrompts defaultLibrary (["react"] ++ "missing" :: ["fe"]) =
      includedPrompts defaultLibrary (["react"] ++ ["fe"]) :=
  combine_skips_and_noPrompts.1 defaultLibrary ["react"] ["fe"] "missing" (by decide)

/-- C10: every operation leaves the catalog unchanged, and re-invoking an
operation with the same arguments (even after any interleaved operation) yields
the identical result payload. -/
theorem operations_pure_frame :
    ∀ (lib : PromptLibrary) (r₁ r₂ : Request),
      (step lib r₁).2 = lib ∧ (step (step lib r₁).2 r₂).1 = (step lib r₂).1 := by
  intro lib r₁ r₂
  cases r₁ <;> exact ⟨rfl, rfl⟩

/-- C5: for two categories that each contribute at least one block, the combined
text of `combine_prompts` on the pair equals the combined text of the first
singleton call, the separator, then that of the second; in particular the pair
call is not the no-prompts-found result (blocks are joined by the separator with
no trailing separator). -/
theorem combine_pair_concat :
    ∀ (lib : PromptLibrary) (sep c1 c2 : String),
      combineBlocks lib [c1] ≠ [] → combineBlocks lib [c2] ≠ [] →
      combine_prompts lib [c1, c2] sep ≠ .noPromptsFound ∧
      combinedTextOf (combine_prompts lib [c1, c2] sep) =
        combinedTextOf (combine_prompts lib [c1] sep) ++ sep ++
          combinedTextOf (combine_prompts lib [c2] sep) := by
  intro lib sep c1 c2 h1 h2
  have hsplit : combineBlocks lib [c1, c2] = combineBlocks lib [c1] ++ combineBlocks lib [c2] := by
    have e : ([c1, c2] : List String) = [c1] ++ [c2] := rfl
    rw [e, combineBlocks_append]
  have h12 : combineBlocks lib [c1, c2] ≠ [] := by
    rw [hsplit]
    intro e
    exact h1 (List.append_eq_nil.mp e).1
  have e1 : (combineBlocks lib [c1]).isEmpty = false := List.isEmpty_eq_false.mpr h1
  have e2 : (combineBlocks lib [c2]).isEmpty = false := List.isEmpty_eq_false.mpr h2
  have e12 : (combineBlocks lib [c1, c2]).isEmpty = false := List.isEmpty_eq_false.mpr h12
  constructor
  · simp only [combine_prompts, e12]
    simp
  · simp only [combine_prompts, e1, e2, e12, Bool.false_eq_true, if_false, combinedTextOf]
    rw [hsplit, joinSep_append sep _ _ h1 h2]

/-- Witness for C5 at the `react` and `fe` categories of the catalog. -/
theorem combine_pair_concat_witness :
    combineBlocks defaultLibrary ["react"] ≠ [] ∧
    combineBlocks defaultLibrary ["fe"] ≠ [] ∧
    (combine_prompts defaultLibrary ["react", "fe"] defaultSeparator ≠ .noPromptsFound ∧
      combinedTextOf (combine_prompts defaultLibrary ["react", "fe"] defaultSeparator) =
        combinedTextOf (combine_prompts defaultLibrary ["react"] defaultSeparator)
          ++ defaultSeparator ++
          combinedTextOf (combine_prompts defaultLibrary ["fe"] defaultSeparator)) :=
  ⟨by decide, by decide,
    combine_pair_concat defaultLibrary defaultSeparator "react" "fe" (by decide) (by decide)⟩

/-- C2 (amended): for every non-empty keyword whose lower-cased form (the form
the code passes, unescaped, to `new RegExp`) contains no regex metacharacter at
all, the relevance of every discovered match equals 10 (if the lower-cased
keyword occurs in the lower-cased name, else 0) plus the count of
non-overlapping, case-insensitive literal occurrences of the keyword in the
body.  On this domain a pattern denotes exactly its literal self, so the model
and the engine agree. -/
theorem search_relevance_eq_claimed :
    ∀ (lib : PromptLibrary) (kw : String) (cats : Option (List String)) (m : SearchMatch),
      m ∈ searchMatches lib kw cats → kw ≠ "" → regexSafe (lowerStr kw) = true →
      m.relevance = claimedRelevance kw m.name m.content := by
  intro lib kw cats m hm hkw hsafe
  have hdot : '.' ∉ (lowerStr kw).data := by
    intro hmem
    simp only [regexSafe, List.all_eq_true] at hsafe
    have h1 := hsafe '.' hmem
    rw [show regexMetachars.contains '.' = true from by decide] at h1
    exact Bool.noConfusion h1
  rw [relevance_of_mem_searchMatches lib kw cats m hm]
  unfold claimedRelevance
  congr 1
  exact jsCountMatches_eq_specCount (lowerStr kw) (lowerStr m.content)
    (lowerStr_ne_empty hkw) hdot

/-- Witness for C2 on a small catalog: the metacharacter-free keyword "beta"
scores 0 + 2 on a body with two occurrences, matching the claimed formula. -/
theorem search_relevance_witness :
    (⟨"react", "alpha", "beta gamma beta", 2⟩ : SearchMatch) ∈
      searchMatches tinyLibrary "beta" none ∧
    "beta" ≠ "" ∧ regexSafe (lowerStr "beta") = true ∧
    (⟨"react", "alpha", "beta gamma beta", 2⟩ : SearchMatch).relevance =
      claimedRelevance "beta" "alpha" "beta gamma beta" := by
  have hm : (⟨"react", "alpha", "beta gamma beta", 2⟩ : SearchMatch) ∈
      searchMatches tinyLibrary "beta" none := by decide
  exact ⟨hm, by decide, by decide,
    search_relevance_eq_claimed tinyLibrary "beta" none _ hm (by decide) (by decide)⟩

/-- C2 counterexample: with keyword "." the first discovered match on the catalog
(the component-creation prompt, whose name contains no ".") has relevance 1074
(the unescaped regex counts every non-newline character of the body), while the
claimed formula gives 0 + 8 (the literal "." occurrences), so the claim as stated
fails on the code. -/
theorem search_relevance_counterexample :
    (searchMatches defaultLibrary "." (some ["react"])).head?.map SearchMatch.name =
      some "component-creation" ∧
    (searchMatches defaultLibrary "." (some ["react"])).head?.map SearchMatch.relevance =
      some 1074 ∧
    claimedRelevance "." "component-creation" componentCreationPrompt = 8 ∧
    (1074 : Nat) ≠ 8 :=
  ⟨by decide, by decide, by decide, by decide⟩

/-- C6: every emitted search entry's snippet is exactly the first 200 characters
of the matched body followed by the ellipsis marker when the body is longer than
200 characters, and exactly the whole body (no marker) when it is 200 or
shorter. -/
theorem search_snippet_rule :
    ∀ (lib : PromptLibrary) (kw : String) (cats : Option (List String)) (m : SearchMatch),
      m ∈ searchMatches lib kw cats →
      toEntry m ∈ (search_prompts lib kw cats).results ∧
      (200 < m.content.data.length →
        (toEntry m).snippet = ⟨m.content.data.take 200⟩ ++ "...") ∧
      (m.content.data.length ≤ 200 → (toEntry m).snippet = m.content) := by
  intro lib kw cats m hm
  refine ⟨mem_results_of_mem_searchMatches lib kw cats m hm, fun hl => ?_, fun hl => ?_⟩
  · simp only [toEntry, snippetOf]
    rw [if_pos hl]
  · simp only [toEntry, snippetOf]
    rw [if_neg (by omega), List.take_of_length_le hl, strMk_data, String.append_empty]

/-- Witness for C6: a 15-character body yields the whole body as snippet, and the
entry is in the emitted results. -/
theorem search_snippet_witness :
    toEntry (⟨"react", "alpha", "beta gamma beta", 2⟩ : SearchMatch) ∈
      (search_prompts tinyLibrary "beta" none).results ∧
    (toEntry (⟨"react", "alpha", "beta gamma beta", 2⟩ : SearchMatch)).snippet =
      "beta gamma beta" := by
  have h := search_snippet_rule tinyLibrary "beta" none
    ⟨"react", "alpha", "beta gamma beta", 2⟩ (by decide)
  exact ⟨h.1, h.2.2 (by decide)⟩

/-- C7: the emitted search results are sorted by descending relevance, and the
sort is stable: for every relevance value, the entries carrying it appear in
exactly their discovery order (category iteration order, then registration
order). -/
theorem search_sorted_and_stable :
    ∀ (lib : PromptLibrary) (kw : String) (cats : Option (List String)),
      ((search_prompts lib kw cats).results).Pairwise
        (fun a b => b.relevance ≤ a.relevance) ∧
      ∀ v : Nat,
        ((search_prompts lib kw cats).results).filter (fun e => e.relevance == v) =
          ((searchMatches lib kw cats).map toEntry).filter (fun e => e.relevance == v) := by
  intro lib kw cats
  constructor
  · show ((List.insertionSort byRelevanceDesc (searchMatches lib kw cats)).map
      toEntry).Pairwise _
    rw [List.pairwise_map]
    exact List.sorted_insertionSort byRelevanceDesc (searchMatches lib kw cats)
  · intro v
    show (((List.insertionSort byRelevanceDesc (searchMatches lib kw cats)).map
      toEntry).filter fun e => e.relevance == v) = _
    rw [List.filter_map, List.filter_map]
    have hp : ∀ l : List SearchMatch,
        l.filter ((fun e : SearchEntry => e.relevance == v) ∘ toEntry) =
          l.filter (fun m => m.relevance == v) :=
      fun l => List.filter_congr (fun m _ => rfl)
    rw [hp, hp, insertionSort_filter_relevance]

/-- C9: with the empty keyword, every prompt of the searched categories is a
match whose relevance is 10 plus one more than the body's character length (the
empty regex yields one empty match per position), and the total count equals the
number of prompts searched. -/
theorem search_empty_keyword_all_match :
    ∀ (lib : PromptLibrary) (cats : Option (List String)),
      searchMatches lib "" cats =
        (promptsIn lib (resolvedCategories lib cats)).map
          (fun t => ⟨t.1, t.2.1, t.2.2, 10 + (t.2.2.data.length + 1)⟩) ∧
      (search_prompts lib "" cats).total_found =
        (promptsIn lib (resolvedCategories lib cats)).length := by
  intro lib cats
  refine ⟨searchMatches_empty_keyword lib cats, ?_⟩
  show (searchMatches lib "" cats).length = _
  rw [searchMatches_empty_keyword lib cats, List.length_map]

end PromptLib
